import Mathlib

/-!
Verification of the `layer-wsgi` charm layer: a shallow embedding of
`reactive/wsgi.py` and `reactive/lib/helpers.py`.

Python strings are modelled as `List Char`; an environment file is a list of
lines (`List (List Char)`), each line normally ending in a newline character,
exactly as Python's `readlines` returns them.  Python dicts keyed by strings
are modelled as association lists in insertion order, with insertion of an
existing key updating the value in place (`dictInsert`).
-/

/-- Convert a string literal to the `List Char` representation used for
Python strings. -/
def chars (s : String) : List Char := s.toList

/-- A Python dict with string keys and string values, in insertion order. -/
abbrev EnvDict := List (List Char × List Char)

/-- Lookup in a dict modelled as an association list: the value of the
first (in a well-formed dict, only) entry with the given key. -/
def dictLookup : EnvDict → List Char → Option (List Char)
  | [], _ => none
  | p :: ps, k => if p.1 == k then some p.2 else dictLookup ps k

/-- Python dict assignment `d[k] = v`: updates the value in place when the
key is present (keeping its position), otherwise appends at the end. -/
def dictInsert : EnvDict → List Char → List Char → EnvDict
  | [], k, v => [(k, v)]
  | p :: ps, k, v => if p.1 == k then (k, v) :: ps else p :: dictInsert ps k v

/-- Characters matching `[a-zA-Z_]`, the first character of the key regex
`^[a-zA-Z_]+[a-zA-Z0-9_]*=` in `helpers.py`. -/
def isIdentStart (c : Char) : Bool := c.isAlpha || c == '_'

/-- Characters matching `[a-zA-Z0-9_]`. -/
def isIdentChar (c : Char) : Bool := c.isAlphanum || c == '_'

/-- Whether `pre` is a nonempty run of identifier characters starting with a
letter or underscore. -/
def isEnvKey (pre : List Char) : Bool :=
  match pre with
  | [] => false
  | c :: cs => isIdentStart c && cs.all isIdentChar

/-- Whether `re.match(r"^[a-zA-Z_]+[a-zA-Z0-9_]*=", line)` succeeds: the line
starts with an identifier immediately followed by `=`.  (The regex matches
exactly when the prefix of the line before its first `=` is a nonempty
identifier: the characters the regex consumes before the matched `=` are all
identifier characters, hence that `=` is the first one in the line.) -/
def envLineMatch (line : List Char) : Bool :=
  isEnvKey (line.takeWhile (fun c => c != '=')) &&
    !(line.dropWhile (fun c => c != '=')).isEmpty

/-- Python `str.strip()`: drop leading and trailing whitespace. -/
def pyStrip (l : List Char) : List Char :=
  ((l.dropWhile Char.isWhitespace).reverse.dropWhile Char.isWhitespace).reverse

/-- The key produced by `env_line.strip().split('=', 1)` for a matching
line: the part of the stripped line before its first `=`. -/
def strippedKey (line : List Char) : List Char :=
  (pyStrip line).takeWhile (fun c => c != '=')

/-- The value produced by `env_line.strip().split('=', 1)` for a matching
line: the part of the stripped line after its first `=`. -/
def strippedValue (line : List Char) : List Char :=
  ((pyStrip line).dropWhile (fun c => c != '=')).drop 1

/-- One iteration of the read loop of `helpers.get_env`: record the line's
key and value when it matches the regex, otherwise skip it. -/
def getEnvStep (env : EnvDict) (line : List Char) : EnvDict :=
  if envLineMatch line then
    dictInsert env (strippedKey line) (strippedValue line)
  else env

/-- `helpers.get_env`: read an environment file into a dict, taking only
lines that match the key regex and splitting each on its first `=`. -/
def get_env (lines : List (List Char)) : EnvDict :=
  lines.foldl getEnvStep []

/-- One iteration of the read loop of `helpers.set_env_values`: the
accumulator carries the rewritten lines so far and the list `found` of keys
of `incoming` seen so far. -/
def setEnvStep (incoming : EnvDict) (acc : List (List Char) × List (List Char))
    (line : List Char) : List (List Char) × List (List Char) :=
  let keyOpt : Option (List Char) :=
    if envLineMatch line then some (strippedKey line) else none
  match keyOpt with
  | some k =>
    match dictLookup incoming k with
    | some v => (acc.1 ++ [k ++ '=' :: (v ++ ['\n'])], acc.2 ++ [k])
    | none => (acc.1 ++ [line], acc.2)
  | none => (acc.1 ++ [line], acc.2)

/-- `helpers.set_env_values`: rewrite every matching line whose key is in
`incoming` in place, then append each key of `incoming` not found in the
file, in dict iteration order. -/
def set_env_values (lines : List (List Char)) (incoming : EnvDict) :
    List (List Char) :=
  let r := lines.foldl (setEnvStep incoming) ([], [])
  r.1 ++ (incoming.filter (fun kv => !(r.2.contains kv.1))).map
    (fun kv => kv.1 ++ '=' :: (kv.2 ++ ['\n']))

/-- How the read loop of `set_env_values` transforms one line: a matching
line whose key is in `incoming` is replaced by `key=value\n` with the new
value; every other line passes through verbatim. -/
def rewriteLine (incoming : EnvDict) (line : List Char) : List Char :=
  match (if envLineMatch line then some (strippedKey line) else none) with
  | some k =>
    match dictLookup incoming k with
    | some v => k ++ '=' :: (v ++ ['\n'])
    | none => line
  | none => line

/-- The keys of the lines of an environment file that match the
`identifier=value` pattern, in file order. -/
def presentKeys (lines : List (List Char)) : List (List Char) :=
  lines.filterMap
    (fun l => if envLineMatch l then some (strippedKey l) else none)

/-- Modelled from the spec's description of `merge` (§4.1): every line whose
key is in `updates` is rewritten in place with the new value, keys absent
from the file are appended at the end in the iteration order of `updates`,
and non-matching lines pass through verbatim.  To be compared with
`set_env_values`. -/
def mergeSpec (lines : List (List Char)) (updates : EnvDict) :
    List (List Char) :=
  lines.map (rewriteLine updates) ++
    (updates.filter (fun kv => !((presentKeys lines).contains kv.1))).map
      (fun kv => kv.1 ++ '=' :: (kv.2 ++ ['\n']))

/-- `helpers.delete_env_value`: keep exactly the lines that do not start
with `target_key + "="`. -/
def delete_env_value (lines : List (List Char)) (targetKey : List Char) :
    List (List Char) :=
  lines.filter (fun l => !((targetKey ++ ['=']).isPrefixOf l))

/-- Digits of a natural number, as Python's `str.format` renders an int. -/
def natChars (n : Nat) : List Char := (toString n).toList

/-- Python truthiness of an optional int (`None` and `0` are falsy). -/
def truthyNat : Option Nat → Bool
  | none => false
  | some n => n != 0

/-- Python truthiness of an optional string (`None` and `""` are falsy). -/
def truthyStr : Option (List Char) → Bool
  | none => false
  | some s => !s.isEmpty

/-- `helpers.build_url_host`: build the host part of a URL from a domain,
port, username and password.  The port is appended only when truthy; the
username prefixes the host only when truthy; the password appears only
when a truthy username is present. -/
def build_url_host (domain : List Char) (port : Option Nat)
    (username password : Option (List Char)) : List Char :=
  let host := domain
  let host :=
    if truthyNat port then domain ++ ':' :: natChars (port.getD 0) else host
  let host :=
    if truthyStr username then
      let credentials :=
        if truthyStr password then
          (username.getD []) ++ ':' :: (password.getD [])
        else username.getD []
      credentials ++ '@' :: host
    else host
  host

/-- The relevant path of CPython's `urllib.parse.urlunsplit` when query and
fragment are `None`: joins a scheme, netloc and path. -/
def urlunsplitChars (scheme netloc url : List Char) : List Char :=
  let url :=
    if !netloc.isEmpty || (!url.isEmpty && url.take 2 == ['/', '/']) then
      let url :=
        if !url.isEmpty && url.take 1 != ['/'] then '/' :: url else url
      '/' :: '/' :: (netloc ++ url)
    else url
  if !scheme.isEmpty then scheme ++ ':' :: url else url

/-- CPython's `urllib.parse.urlunparse` as called in `wsgi.py`, with params,
query and fragment all `None`. -/
def urlunparseChars (scheme netloc path : List Char) : List Char :=
  urlunsplitChars scheme netloc path

/-- Helper for `pyWords`: `acc` holds the characters of the current word in
reverse. -/
def pyWordsAux : List Char → List Char → List (List Char)
  | [], acc => if acc.isEmpty then [] else [acc.reverse]
  | c :: cs, acc =>
    if c.isWhitespace then
      if acc.isEmpty then pyWordsAux cs []
      else acc.reverse :: pyWordsAux cs []
    else pyWordsAux cs (c :: acc)

/-- Python `str.split()` with no argument: whitespace-separated words,
empty chunks discarded. -/
def pyWords (s : List Char) : List (List Char) := pyWordsAux s []

/-- Python `str.split(sep)` for a single-character separator, keeping empty
chunks: `"a=b=c".split('=') = ["a","b","c"]`. -/
def splitOnChar (sep : Char) : List Char → List (List Char)
  | [] => [[]]
  | c :: cs =>
    if c == sep then [] :: splitOnChar sep cs
    else
      match splitOnChar sep cs with
      | [] => [[c]]
      | w :: ws => (c :: w) :: ws

/-- Errors a handler can raise: a non-zero exit of an external command
(`subprocess.CalledProcessError`), the `socket.error` raised when the health
loop exhausts its attempts, and the `ValueError` raised by tuple unpacking
in `variables_from_string`. -/
inductive PyError
  | processFailure (cmd : List String)
  | serviceNotResponding
  | valueError
deriving DecidableEq, Repr

/-- One iteration of the loop of `variables_from_string`: unpack
`variable_name, value = declaration.split('=')`, raising `ValueError`
unless the split has exactly two parts. -/
def vfsStep (vars : EnvDict) (tok : List Char) : Except PyError EnvDict :=
  match splitOnChar '=' tok with
  | [name, value] => Except.ok (dictInsert vars name value)
  | _ => Except.error PyError.valueError

/-- `helpers.variables_from_string`: split the declaration string on
whitespace and unpack each token as `name=value`; a token whose `split('=')`
does not have exactly two parts raises `ValueError`. -/
def variables_from_string (s : List Char) : Except PyError EnvDict :=
  (pyWords s).foldlM vfsStep []

/-- A `pwd.struct_passwd` record, restricted to the fields `demote` uses. -/
structure PwUser where
  pw_uid : Nat
  pw_gid : Nat
deriving DecidableEq, Repr

/-- The uid and gid of the current process, mutated by `os.setuid` and
`os.setgid`. -/
structure ProcessCreds where
  uid : Nat
  gid : Nat
deriving DecidableEq, Repr

/-- `helpers.demote`: the closure runs `os.setgid(user.pw_uid)` followed by
`os.setuid(user.pw_gid)` on the process credentials. -/
def demote (user : PwUser) (st : ProcessCreds) : ProcessCreds :=
  let st := { st with gid := user.pw_uid }
  { st with uid := user.pw_gid }

/-- The readiness flags (charm states) used by `wsgi.py`. -/
inductive StateFlag
  | systemReady
  | configured
  | sourceAvailable
  | ready
  | available
deriving DecidableEq, Repr

/-- Observable effects a handler performs, in order. -/
inductive Effect
  | removeState (f : StateFlag)
  | setState (f : StateFlag)
  | statusSet (level : String)
  | log
  | aptInstall (pkgs : List String)
  | getUser
  | execCall (cmd : List String)
  | writeEnvFile (lines : List (List Char))
  | openPort (p : Nat)
  | renderUnit (p : Nat)
  | serviceReload
  | serviceStart
  | checkHealth (attempt : Nat)
  | sleepSecs (n : Nat)
  | announcePort (p : Nat)
deriving DecidableEq, Repr

/-- `charms.reactive.set_state`: a no-op when the flag is already set. -/
def setStateFlag (flags : List StateFlag) (f : StateFlag) : List StateFlag :=
  if f ∈ flags then flags else flags ++ [f]

/-- `charms.reactive.remove_state`. -/
def removeStateFlag (flags : List StateFlag) (f : StateFlag) : List StateFlag :=
  flags.filter (fun g => g != f)

/-- One database relation record, restricted to the keys `wsgi.py` reads.
An attribute a relation does not carry is `none`; an absent host is
modelled as the empty string when passed on to `build_url_host` (no claim
exercises a relation without a host). -/
structure Relation where
  host : Option (List Char)
  hostname : Option (List Char)
  port : Option Nat
  user : Option (List Char)
  password : Option (List Char)
  database : Option (List Char)
deriving DecidableEq, Repr

/-- Everything the provisioning pass reads from its surroundings: config
values, relation data, the filesystem and the behaviour of external
commands.  `serviceRunningAt a` and `portOpenAt a` give the results of
`service_running` and `is_port_open` during health-loop attempt `a`. -/
structure World where
  requirementsTxt : Bool
  pipCacheDir : Option (List Char)
  postgresRelations : List Relation
  mongoRelations : List Relation
  provisionCommand : Option (List Char)
  configPort : Nat
  serviceRunningInit : Bool
  serviceRunningAt : Nat → Bool
  portOpenAt : Nat → Bool
  pipOk : Bool
  provisionOk : Bool
  daemonReloadOk : Bool

/-- Result of running one handler: the outcome (normal return or raised
error), the ordered list of effects, and the final environment-file
contents and flag set. -/
structure PassResult where
  res : Except PyError Unit
  trace : List Effect
  envFile : List (List Char)
  flags : List StateFlag

/-- Python `a or b` on two optional strings: the first truthy operand. -/
def pyOr (a b : Option (List Char)) : Option (List Char) :=
  match a with
  | some s => if s.isEmpty then b else some s
  | none => b

/-- Lines 135–144 of `wsgi.py`: choose the first Postgres relation if any,
else the first Mongo relation, else nothing, together with the URL scheme. -/
def resolveDb (postgres mongo : List Relation) :
    Option (List Char × Relation) :=
  match postgres with
  | r :: _ => some (chars "postgresql", r)
  | [] =>
    match mongo with
    | r :: _ => some (chars "mongodb", r)
    | [] => none

/-- The database connection URL computed at lines 146–162 of `wsgi.py`. -/
def databaseUrl (scheme : List Char) (rel : Relation) : List Char :=
  urlunparseChars scheme
    (build_url_host ((pyOr rel.host rel.hostname).getD [])
      rel.port rel.user rel.password)
    (rel.database.getD [])

/-- The health-verification loop at lines 213–221 of `wsgi.py`, as a
function of the attempt-indexed predicate.  Each iteration logs, evaluates
the predicate, and on failure sleeps 6 seconds before the next iteration
(also after the last one). -/
def healthLoop (pred : Nat → Bool) (attempt remaining : Nat) :
    Bool × List Effect :=
  match remaining with
  | 0 => (false, [])
  | r + 1 =>
    let acts := [Effect.log, Effect.checkHealth attempt]
    if pred attempt then (true, acts)
    else
      let rest := healthLoop pred (attempt + 1) r
      (rest.1, acts ++ Effect.sleepSecs 6 :: rest.2)

/-- The `pip3 install` command built at lines 110–129 of `wsgi.py`. -/
def pipCommand (cacheDir : Option (List Char)) : List String :=
  if truthyStr cacheDir then
    ["pip3", "install", "--no-index", "--find-links",
      String.mk (cacheDir.getD []), "--requirement", "requirements.txt"]
  else
    ["pip3", "install", "--requirement", "requirements.txt"]

/-- Lines 105–129 of `wsgi.py`: install application dependencies when a
`requirements.txt` is present, from the cache directory when one is
configured. -/
def pipPhase (w : World) : Except PyError Unit × List Effect :=
  if w.requirementsTxt then
    let cmd := pipCommand w.pipCacheDir
    (if w.pipOk then Except.ok () else Except.error (PyError.processFailure cmd),
      [Effect.log, Effect.execCall cmd])
  else (Except.ok (), [])

/-- Lines 133–177 of `wsgi.py`: resolve the database relation; when one is
present store its connection URL under `DATABASE_URL` and run the optional
provisioning command, otherwise delete any stored `DATABASE_URL`. -/
def dbPhase (w : World) (env : List (List Char)) :
    Except PyError Unit × List Effect × List (List Char) :=
  match resolveDb w.postgresRelations w.mongoRelations with
  | some (scheme, rel) =>
    let env1 := set_env_values env [(chars "DATABASE_URL", databaseUrl scheme rel)]
    let tr := [Effect.log, Effect.writeEnvFile env1]
    if truthyStr w.provisionCommand then
      let cmd := (pyWords (w.provisionCommand.getD [])).map String.mk
      if w.provisionOk then
        (Except.ok (), tr ++ [Effect.statusSet "maintenance", Effect.execCall cmd],
          env1)
      else
        (Except.error (PyError.processFailure cmd),
          tr ++ [Effect.statusSet "maintenance", Effect.execCall cmd], env1)
    else (Except.ok (), tr, env1)
  | none =>
    let env1 := delete_env_value env (chars "DATABASE_URL")
    (Except.ok (), [Effect.log, Effect.writeEnvFile env1], env1)

/-- Lines 179–230 of `wsgi.py`: open the port, render the unit file, reload
systemd, start or reload the service, and run the health loop; on success
set `wsgi.available`, on exhaustion raise `socket.error`. -/
def servicePhase (w : World) (_env : List (List Char)) (flags : List StateFlag) :
    Except PyError Unit × List Effect × List StateFlag :=
  let tr := [Effect.statusSet "maintenance", Effect.log,
    Effect.openPort w.configPort, Effect.log, Effect.statusSet "maintenance",
    Effect.renderUnit w.configPort,
    Effect.execCall ["systemctl", "daemon-reload"]]
  if w.daemonReloadOk then
    let tr := tr ++
      (if w.serviceRunningInit then [Effect.log, Effect.serviceReload]
        else [Effect.log, Effect.serviceStart])
    let health :=
      healthLoop (fun a => w.serviceRunningAt a && w.portOpenAt a) 0 10
    if health.1 then
      (Except.ok (),
        tr ++ health.2 ++
          [Effect.log, Effect.statusSet "active", Effect.setState StateFlag.available],
        setStateFlag flags StateFlag.available)
    else
      (Except.error PyError.serviceNotResponding, tr ++ health.2, flags)
  else
    (Except.error (PyError.processFailure ["systemctl", "daemon-reload"]),
      tr, flags)

/-- The body of `start_application_service` after the two `remove_state`
calls, threading the environment file and the flag set. -/
def passBody (w : World) (env : List (List Char)) (flags : List StateFlag) :
    PassResult :=
  match (pipPhase w).1 with
  | Except.error e =>
    ⟨Except.error e, [Effect.statusSet "maintenance"] ++ (pipPhase w).2, env,
      flags⟩
  | Except.ok () =>
    match (dbPhase w env).1 with
    | Except.error e =>
      ⟨Except.error e,
        [Effect.statusSet "maintenance"] ++ (pipPhase w).2 ++
          [Effect.setState StateFlag.ready, Effect.log] ++ (dbPhase w env).2.1,
        (dbPhase w env).2.2, setStateFlag flags StateFlag.ready⟩
    | Except.ok () =>
      ⟨(servicePhase w (dbPhase w env).2.2
          (setStateFlag flags StateFlag.ready)).1,
        [Effect.statusSet "maintenance"] ++ (pipPhase w).2 ++
          [Effect.setState StateFlag.ready, Effect.log] ++
          (dbPhase w env).2.1 ++
          (servicePhase w (dbPhase w env).2.2
            (setStateFlag flags StateFlag.ready)).2.1,
        (dbPhase w env).2.2,
        (servicePhase w (dbPhase w env).2.2
          (setStateFlag flags StateFlag.ready)).2.2⟩

/-- `start_application_service` (lines 100–230 of `wsgi.py`): its first two
effects remove `wsgi.source.available` and `wsgi.available`, then the body
runs. -/
def start_application_service (w : World) (env0 : List (List Char))
    (flags0 : List StateFlag) : PassResult :=
  let flags1 := removeStateFlag (removeStateFlag flags0 StateFlag.sourceAvailable) StateFlag.available
  let body := passBody w env0 flags1
  ⟨body.res,
    Effect.removeState StateFlag.sourceAvailable ::
      Effect.removeState StateFlag.available :: body.trace,
    body.envFile, body.flags⟩

/-- `database_attached` (lines 91–96 of `wsgi.py`): run the pass only when
`wsgi.configured`, `wsgi.source.available` and `wsgi.system.ready` all
hold. -/
def database_attached (w : World) (env0 : List (List Char))
    (flags0 : List StateFlag) : PassResult :=
  if StateFlag.configured ∈ flags0 ∧ StateFlag.sourceAvailable ∈ flags0 ∧
      StateFlag.systemReady ∈ flags0 then
    start_application_service w env0 flags0
  else ⟨Except.ok (), [], env0, flags0⟩

/-- `system_dependencies` (lines 52–67 of `wsgi.py`): install system
packages, ensure the service user exists, set `wsgi.system.ready`. -/
def system_dependencies (env0 : List (List Char)) (flags0 : List StateFlag) :
    PassResult :=
  ⟨Except.ok (),
    [Effect.statusSet "maintenance", Effect.log,
      Effect.aptInstall ["python3-pip", "python-setuptools", "circus",
        "gunicorn3"],
      Effect.log, Effect.getUser, Effect.setState StateFlag.systemReady],
    env0, setStateFlag flags0 StateFlag.systemReady⟩

/-- `configure_dependencies` (lines 70–88 of `wsgi.py`): install configured
apt packages, merge the declared environment variables into the environment
file, set `wsgi.configured`.  A malformed declaration string raises before
the merge. -/
def configure_dependencies (aptDeps : List String) (envVarsStr : List Char)
    (env0 : List (List Char)) (flags0 : List StateFlag) : PassResult :=
  let tr0 := [Effect.statusSet "maintenance", Effect.aptInstall aptDeps,
    Effect.log]
  match variables_from_string envVarsStr with
  | Except.error e => ⟨Except.error e, tr0, env0, flags0⟩
  | Except.ok vars =>
    let env1 := set_env_values env0 vars
    ⟨Except.ok (), tr0 ++ [Effect.writeEnvFile env1,
        Effect.setState StateFlag.configured],
      env1, setStateFlag flags0 StateFlag.configured⟩

/-- `send_port` (lines 233–235 of `wsgi.py`). -/
def send_port (w : World) (env0 : List (List Char)) (flags0 : List StateFlag) :
    PassResult :=
  ⟨Except.ok (), [Effect.announcePort w.configPort], env0, flags0⟩

/-- The spec's reading of a well-formed declaration token list: each token
contributes its part before the `=` as key and its part after as value,
later duplicates overriding earlier ones. -/
def declaredVars (tokens : List (List Char)) : EnvDict :=
  tokens.foldl
    (fun d t =>
      dictInsert d (t.takeWhile (fun c => c != '='))
        ((t.dropWhile (fun c => c != '=')).drop 1))
    []

/-- The Postgres relation of end-to-end scenario B:
`host="db1", port=5432, user="app"`, no database name. -/
def sampleRelation : Relation :=
  ⟨some (chars "db1"), none, some 5432, some (chars "app"), none, none⟩

/-- A concrete world for witnesses: no `requirements.txt`, no relations, no
provisioning command, external commands succeed, and the service never
responds. -/
def sampleWorld : World where
  requirementsTxt := false
  pipCacheDir := none
  postgresRelations := []
  mongoRelations := []
  provisionCommand := none
  configPort := 80
  serviceRunningInit := false
  serviceRunningAt := fun _ => false
  portOpenAt := fun _ => false
  pipOk := true
  provisionOk := true
  daemonReloadOk := true

/-- Whether an effect is a `sleep` call. -/
def isSleepEffect : Effect → Bool
  | Effect.sleepSecs _ => true
  | _ => false

/-- Whether an effect is an evaluation of the health predicate. -/
def isCheckEffect : Effect → Bool
  | Effect.checkHealth _ => true
  | _ => false

/-- Number of `sleep` calls in a trace. -/
def countSleeps (tr : List Effect) : Nat := tr.countP isSleepEffect

/-- Number of health-predicate evaluations in a trace. -/
def countChecks (tr : List Effect) : Nat := tr.countP isCheckEffect

theorem healthLoop_all_false (pred : Nat → Bool) :
    ∀ (r attempt : Nat), (∀ j, j < r → pred (attempt + j) = false) →
    (healthLoop pred attempt r).1 = false ∧
    countChecks (healthLoop pred attempt r).2 = r ∧
    countSleeps (healthLoop pred attempt r).2 = r := by
  intro r
  induction r with
  | zero =>
    intro attempt _
    simp [healthLoop, countChecks, countSleeps]
  | succ n ih =>
    intro attempt h
    have h0 : pred attempt = false := by simpa using h 0 (Nat.succ_pos n)
    have hrest := ih (attempt + 1) (fun j hj => by
      have := h (j + 1) (Nat.succ_lt_succ hj)
      rw [show attempt + 1 + j = attempt + (j + 1) by omega]
      exact this)
    simp only [healthLoop, h0, Bool.false_eq_true, if_false, countChecks,
      countSleeps, List.countP_append, List.countP_cons] at *
    simp [isSleepEffect, isCheckEffect, hrest.1, hrest.2.1, hrest.2.2]
    omega

theorem healthLoop_first_true (pred : Nat → Bool) :
    ∀ (k r attempt : Nat), k < r → pred (attempt + k) = true →
    (∀ j, j < k → pred (attempt + j) = false) →
    (healthLoop pred attempt r).1 = true ∧
    countChecks (healthLoop pred attempt r).2 = k + 1 ∧
    countSleeps (healthLoop pred attempt r).2 = k := by
  intro k
  induction k with
  | zero =>
    intro r attempt hk h0 _
    match r, hk with
    | n + 1, _ =>
      have h0' : pred attempt = true := by simpa using h0
      simp [healthLoop, h0', countChecks, countSleeps, List.countP_cons,
        isSleepEffect, isCheckEffect]
  | succ m ih =>
    intro r attempt hk htrue hbefore
    match r, hk with
    | n + 1, hk =>
      have h0 : pred attempt = false := by
        simpa using hbefore 0 (Nat.succ_pos m)
      have hrest := ih n (attempt + 1) (Nat.lt_of_succ_lt_succ hk)
        (by rw [show attempt + 1 + m = attempt + (m + 1) by omega]; exact htrue)
        (fun j hj => by
          have := hbefore (j + 1) (Nat.succ_lt_succ hj)
          rw [show attempt + 1 + j = attempt + (j + 1) by omega]
          exact this)
      simp only [healthLoop, h0, Bool.false_eq_true, if_false, countChecks,
        countSleeps, List.countP_append, List.countP_cons] at *
      simp [isSleepEffect, isCheckEffect, hrest.1, hrest.2.1, hrest.2.2]
      omega

/-- C1 (corrected): the health loop of `start_application_service` with
`max_attempts = 10`.  If the predicate first returns true on the attempt
with zero-based index `k` (the claim's 1-based attempt `k+1`), the loop
succeeds after `k+1` evaluations and exactly `k` sleeps.  If the predicate
is false on every attempt, the loop fails after exactly 10 evaluations and
exactly 10 sleeps — not 9 as claimed, because the loop body sleeps after
every failed attempt, including the final one. -/
theorem health_verifier_attempts (pred : Nat → Bool) :
    (∀ k, k < 10 → pred k = true → (∀ j, j < k → pred j = false) →
      (healthLoop pred 0 10).1 = true ∧
      countChecks (healthLoop pred 0 10).2 = k + 1 ∧
      countSleeps (healthLoop pred 0 10).2 = k) ∧
    ((∀ j, j < 10 → pred j = false) →
      (healthLoop pred 0 10).1 = false ∧
      countChecks (healthLoop pred 0 10).2 = 10 ∧
      countSleeps (healthLoop pred 0 10).2 = 10) := by
  constructor
  · intro k hk htrue hbefore
    exact healthLoop_first_true pred k 10 0 hk (by simpa using htrue)
      (fun j hj => by simpa using hbefore j hj)
  · intro h
    exact healthLoop_all_false pred 10 0 (fun j hj => by simpa using h j hj)

/-- Witness for C1's theorem: a predicate first true on the fourth attempt
(index 3) gives success with 3 sleeps; an always-false predicate gives
failure with 10 evaluations and 10 sleeps. -/
theorem health_verifier_attempts_witness :
    (healthLoop (fun j => j == 3) 0 10).1 = true ∧
    countChecks (healthLoop (fun j => j == 3) 0 10).2 = 4 ∧
    countSleeps (healthLoop (fun j => j == 3) 0 10).2 = 3 ∧
    (healthLoop (fun _ => false) 0 10).1 = false ∧
    countChecks (healthLoop (fun _ => false) 0 10).2 = 10 ∧
    countSleeps (healthLoop (fun _ => false) 0 10).2 = 10 :=
  have h1 := (health_verifier_attempts (fun j => j == 3)).1 3 (by decide)
    (by decide) (by decide)
  have h2 := (health_verifier_attempts (fun _ => false)).2 (fun _ _ => rfl)
  ⟨h1.1, h1.2.1, h1.2.2, h2.1, h2.2.1, h2.2.2⟩

/-- Counterexample to C1 as stated: with the predicate false on every
attempt the loop performs 10 sleeps, not `max_attempts − 1 = 9`. -/
theorem health_verifier_nine_sleeps_false :
    ¬ (countSleeps (healthLoop (fun _ => false) 0 10).2 = 10 - 1) := by
  decide

example : build_url_host (chars "example.com") none none none =
    chars "example.com" := by decide

example : build_url_host (chars "example.com") (some 8080)
    (some (chars "robin")) (some (chars "mypassword")) =
    chars "robin:mypassword@example.com:8080" := by decide

example : urlunparseChars (chars "postgresql") (chars "app@db1:5432") [] =
    chars "postgresql://app@db1:5432" := by decide

example : pyWords (chars " a=1  b=2 ") = [chars "a=1", chars "b=2"] := by
  decide

example : splitOnChar '=' (chars "a=b=c") =
    [chars "a", chars "b", chars "c"] := by decide

example : get_env [chars "A=1\n", chars "# comment\n", chars "A=2\n"] =
    [(chars "A", chars "2")] := by decide

/-- C9 (confirmed): the demotion helper sets the process group id from the
user's `pw_uid` field and the process user id from the user's `pw_gid`
field — it swaps the two fields instead of applying each to its own
setter. -/
theorem demote_swaps_uid_and_gid (user : PwUser) (st : ProcessCreds) :
    (demote user st).gid = user.pw_uid ∧ (demote user st).uid = user.pw_gid := by
  constructor <;> rfl

/-- C5 (confirmed): the presence/absence matrix of `build_url_host`: host
alone; host with truthy port; username prepended with `@`; password joined
to the username with `:`; a password without a (truthy) username is
ignored; a falsy port (`None` or `0`) is omitted. -/
theorem build_url_host_matrix (host u pw pw2 : List Char) (p : Nat)
    (hp : p ≠ 0) (hu : u ≠ []) (hpw : pw ≠ []) :
    build_url_host host none none none = host ∧
    build_url_host host (some p) none none = host ++ ':' :: natChars p ∧
    build_url_host host (some p) (some u) none =
      u ++ '@' :: (host ++ ':' :: natChars p) ∧
    build_url_host host (some p) (some u) (some pw) =
      (u ++ ':' :: pw) ++ '@' :: (host ++ ':' :: natChars p) ∧
    build_url_host host (some p) none (some pw2) =
      build_url_host host (some p) none none ∧
    build_url_host host (some p) (some []) (some pw2) =
      build_url_host host (some p) none none ∧
    build_url_host host (some 0) (some u) (some pw) =
      build_url_host host none (some u) (some pw) := by
  have hp' : (p != 0) = true := by simpa using hp
  have hu' : u.isEmpty = false := by
    cases u with
    | nil => exact absurd rfl hu
    | cons c cs => rfl
  have hpw' : pw.isEmpty = false := by
    cases pw with
    | nil => exact absurd rfl hpw
    | cons c cs => rfl
  refine ⟨rfl, ?_, ?_, ?_, ?_, ?_, ?_⟩ <;>
    simp [build_url_host, truthyNat, truthyStr, hp', hu', hpw']

/-- Witness for C5's theorem at the concrete inputs of the docstring of
`build_url_host`. -/
theorem build_url_host_matrix_witness :
    build_url_host (chars "example.com") none none none =
      chars "example.com" ∧
    build_url_host (chars "example.com") (some 8080) none none =
      chars "example.com" ++ ':' :: natChars 8080 ∧
    build_url_host (chars "example.com") (some 8080) (some (chars "robin"))
        none =
      chars "robin" ++ '@' :: (chars "example.com" ++ ':' :: natChars 8080) ∧
    build_url_host (chars "example.com") (some 8080) (some (chars "robin"))
        (some (chars "mypassword")) =
      (chars "robin" ++ ':' :: chars "mypassword") ++
        '@' :: (chars "example.com" ++ ':' :: natChars 8080) ∧
    build_url_host (chars "example.com") (some 8080) none
        (some (chars "secret")) =
      build_url_host (chars "example.com") (some 8080) none none ∧
    build_url_host (chars "example.com") (some 8080) (some [])
        (some (chars "secret")) =
      build_url_host (chars "example.com") (some 8080) none none ∧
    build_url_host (chars "example.com") (some 0) (some (chars "robin"))
        (some (chars "mypassword")) =
      build_url_host (chars "example.com") none (some (chars "robin"))
        (some (chars "mypassword")) :=
  build_url_host_matrix (chars "example.com") (chars "robin")
    (chars "mypassword") (chars "secret") 8080 (by decide) (by decide)
    (by decide)

theorem identStart_not_ws {c : Char} (h : isIdentStart c = true) :
    c.isWhitespace = false := by
  cases hb : c.isWhitespace
  · rfl
  · exfalso
    have hc : c = ' ' ∨ c = '\t' ∨ c = '\r' ∨ c = '\n' := by
      simpa [Char.isWhitespace, or_assoc] using hb
    rcases hc with rfl | rfl | rfl | rfl <;> exact absurd h (by decide)

theorem identChar_not_ws {c : Char} (h : isIdentChar c = true) :
    c.isWhitespace = false := by
  cases hb : c.isWhitespace
  · rfl
  · exfalso
    have hc : c = ' ' ∨ c = '\t' ∨ c = '\r' ∨ c = '\n' := by
      simpa [Char.isWhitespace, or_assoc] using hb
    rcases hc with rfl | rfl | rfl | rfl <;> exact absurd h (by decide)

theorem identChar_ne_eq {c : Char} (h : isIdentChar c = true) :
    (c != '=') = true := by
  rcases eq_or_ne c '=' with rfl | hne
  · exact absurd h (by decide)
  · simpa using hne

theorem identStart_identChar {c : Char} (h : isIdentStart c = true) :
    isIdentChar c = true := by
  simp only [isIdentStart, Bool.or_eq_true] at h
  rcases h with h | h
  · simp [isIdentChar, Char.isAlphanum, h]
  · simp [isIdentChar, h]

theorem envKey_all_ident {k : List Char} (h : isEnvKey k = true) :
    ∀ c ∈ k, isIdentChar c = true := by
  cases k with
  | nil => exact absurd h (by decide)
  | cons c cs =>
    simp only [isEnvKey, Bool.and_eq_true] at h
    intro x hx
    rcases List.mem_cons.1 hx with rfl | hx
    · exact identStart_identChar h.1
    · exact (List.all_eq_true.1 h.2) x hx

theorem envKey_ne_nil {k : List Char} (h : isEnvKey k = true) : k ≠ [] := by
  cases k with
  | nil => exact absurd h (by decide)
  | cons c cs => exact List.cons_ne_nil c cs

theorem takeWhile_append_stop {p : Char → Bool} {a : Char} (ha : p a = false) :
    ∀ (l₁ l₂ : List Char), (∀ c ∈ l₁, p c = true) →
    (l₁ ++ a :: l₂).takeWhile p = l₁ := by
  intro l₁
  induction l₁ with
  | nil =>
    intro l₂ _
    simp [List.takeWhile_cons, ha]
  | cons c cs ih =>
    intro l₂ h
    have hc : p c = true := h c (List.mem_cons_self c cs)
    simp only [List.cons_append, List.takeWhile_cons, hc, if_true]
    rw [ih l₂ (fun x hx => h x (List.mem_cons_of_mem c hx))]

theorem dropWhile_append_stop {p : Char → Bool} {a : Char} (ha : p a = false) :
    ∀ (l₁ l₂ : List Char), (∀ c ∈ l₁, p c = true) →
    (l₁ ++ a :: l₂).dropWhile p = a :: l₂ := by
  intro l₁
  induction l₁ with
  | nil =>
    intro l₂ _
    simp [List.dropWhile_cons, ha]
  | cons c cs ih =>
    intro l₂ h
    have hc : p c = true := h c (List.mem_cons_self c cs)
    simp only [List.cons_append, List.dropWhile_cons, hc, if_true]
    exact ih l₂ (fun x hx => h x (List.mem_cons_of_mem c hx))

theorem dropWhile_append_keep {p : Char → Bool} {a : Char} (ha : p a = false) :
    ∀ (l₁ l₂ : List Char),
    (l₁ ++ a :: l₂).dropWhile p = l₁.dropWhile p ++ a :: l₂ := by
  intro l₁
  induction l₁ with
  | nil =>
    intro l₂
    simp [List.dropWhile_cons, ha]
  | cons c cs ih =>
    intro l₂
    by_cases hc : p c = true
    · simp only [List.cons_append, List.dropWhile_cons, hc, if_true]
      exact ih l₂
    · have hc' : p c = false := by
        cases hb : p c
        · rfl
        · exact absurd hb hc
      simp [List.dropWhile_cons, hc']

theorem dropWhile_eq_self_of_all {p : Char → Bool} {a : Char}
    (ha : p a = false) (l₁ l₂ : List Char) (h : ∀ c ∈ l₁, p c = false) :
    (l₁ ++ a :: l₂).dropWhile p = l₁ ++ a :: l₂ := by
  cases l₁ with
  | nil => simp [List.dropWhile_cons, ha]
  | cons c cs =>
    have hc : p c = false := h c (List.mem_cons_self c cs)
    simp [List.dropWhile_cons, hc]

theorem envLine_decomp {line : List Char} (h : envLineMatch line = true) :
    ∃ rest : List Char,
      line = line.takeWhile (fun c => c != '=') ++ '=' :: rest := by
  have h2 : ¬ (line.dropWhile (fun c => c != '=')).isEmpty = true := by
    simp only [envLineMatch, Bool.and_eq_true, Bool.not_eq_true'] at h
    simp [h.2]
  have hhead := List.head?_dropWhile_not (fun c => c != '=') line
  cases hdw : line.dropWhile (fun c => c != '=') with
  | nil => rw [hdw] at h2; simp at h2
  | cons c t =>
    rw [hdw] at hhead
    simp only [List.head?_cons] at hhead
    have hc : c = '=' := by simpa using hhead
    refine ⟨t, ?_⟩
    conv_lhs => rw [← List.takeWhile_append_dropWhile (p := fun c => c != '=')
      (l := line)]
    rw [hdw, hc]

theorem takeWhile_all_ne_eq (line : List Char) :
    ∀ c ∈ line.takeWhile (fun c => c != '='), (c != '=') = true :=
  fun _ hc => List.mem_takeWhile_imp (p := fun c => c != '=') hc

theorem pyStrip_of_match {line : List Char} (h : envLineMatch line = true) :
    ∃ z : List Char,
      pyStrip line = line.takeWhile (fun c => c != '=') ++ '=' :: z := by
  obtain ⟨rest, hline⟩ := envLine_decomp h
  set key := line.takeWhile (fun c => c != '=') with hkey
  have hkeyall : ∀ c ∈ key, isIdentChar c = true := by
    have h1 : isEnvKey key = true := by
      simp only [envLineMatch, Bool.and_eq_true] at h
      exact h.1
    exact envKey_all_ident h1
  have hkeynws : ∀ c ∈ key, c.isWhitespace = false :=
    fun c hc => identChar_not_ws (hkeyall c hc)
  have hwseq : Char.isWhitespace '=' = false := by decide
  -- leading strip is a no-op: the line starts with an identifier character
  have hlead : line.dropWhile Char.isWhitespace = line := by
    rw [hline]
    exact dropWhile_eq_self_of_all hwseq key rest hkeynws
  -- trailing strip stops at or after the '=' separator
  have hrev : line.reverse = rest.reverse ++ '=' :: key.reverse := by
    rw [hline]; simp
  have htrail : line.reverse.dropWhile Char.isWhitespace =
      rest.reverse.dropWhile Char.isWhitespace ++ '=' :: key.reverse := by
    rw [hrev]
    exact dropWhile_append_keep hwseq rest.reverse key.reverse
  refine ⟨(rest.reverse.dropWhile Char.isWhitespace).reverse, ?_⟩
  unfold pyStrip
  rw [hlead, htrail]
  simp

theorem prefixOf_append (l₁ l₂ : List Char) :
    l₁.isPrefixOf (l₁ ++ l₂) = true := by
  induction l₁ with
  | nil => simp [List.isPrefixOf]
  | cons c cs ih => simp [List.isPrefixOf, ih]

theorem strippedKey_of_match {line : List Char} (h : envLineMatch line = true) :
    strippedKey line = line.takeWhile (fun c => c != '=') ∧
    (line.takeWhile (fun c => c != '=') ++ ['=']).isPrefixOf line = true ∧
    isEnvKey (line.takeWhile (fun c => c != '=')) = true := by
  obtain ⟨z, hstrip⟩ := pyStrip_of_match h
  obtain ⟨rest, hline⟩ := envLine_decomp h
  refine ⟨?_, ?_, ?_⟩
  · unfold strippedKey
    rw [hstrip]
    exact takeWhile_append_stop (p := fun c => c != '=') (a := '=')
      (by decide) _ z (takeWhile_all_ne_eq line)
  · have hgen : ∀ (K R : List Char), line = K ++ '=' :: R →
        (K ++ ['=']).isPrefixOf line = true := by
      intro K R hKR
      rw [hKR, show K ++ '=' :: R = (K ++ ['=']) ++ R by simp]
      exact prefixOf_append _ _
    exact hgen _ rest hline
  · simp only [envLineMatch, Bool.and_eq_true] at h
    exact h.1

theorem canonical_line_parse {k v : List Char} (hk : isEnvKey k = true)
    (hv : ∀ c ∈ v, c.isWhitespace = false) :
    envLineMatch (k ++ '=' :: (v ++ ['\n'])) = true ∧
    strippedKey (k ++ '=' :: (v ++ ['\n'])) = k ∧
    strippedValue (k ++ '=' :: (v ++ ['\n'])) = v := by
  have hkp : ∀ c ∈ k, (c != '=') = true :=
    fun c hc => identChar_ne_eq (envKey_all_ident hk c hc)
  have hknws : ∀ c ∈ k, c.isWhitespace = false :=
    fun c hc => identChar_not_ws (envKey_all_ident hk c hc)
  have htake : (k ++ '=' :: (v ++ ['\n'])).takeWhile (fun c => c != '=') = k :=
    takeWhile_append_stop (p := fun c => c != '=') (a := '=') (by decide) k _ hkp
  have hdrop : (k ++ '=' :: (v ++ ['\n'])).dropWhile (fun c => c != '=') =
      '=' :: (v ++ ['\n']) :=
    dropWhile_append_stop (p := fun c => c != '=') (a := '=') (by decide) k _ hkp
  have hstrip : pyStrip (k ++ '=' :: (v ++ ['\n'])) = k ++ '=' :: v := by
    unfold pyStrip
    have hlead : (k ++ '=' :: (v ++ ['\n'])).dropWhile Char.isWhitespace =
        k ++ '=' :: (v ++ ['\n']) :=
      dropWhile_eq_self_of_all (by decide) k _ hknws
    rw [hlead]
    have hrev : (k ++ '=' :: (v ++ ['\n'])).reverse =
        '\n' :: (v.reverse ++ '=' :: k.reverse) := by simp
    rw [hrev]
    have hvrev : ∀ c ∈ v.reverse, Char.isWhitespace c = false :=
      fun c hc => hv c (List.mem_reverse.1 hc)
    have hmid : (('\n' : Char) :: (v.reverse ++ '=' :: k.reverse)).dropWhile
        Char.isWhitespace = v.reverse ++ '=' :: k.reverse := by
      rw [List.dropWhile_cons_of_pos (by decide)]
      exact dropWhile_eq_self_of_all (by decide) v.reverse k.reverse hvrev
    rw [hmid]
    simp
  refine ⟨?_, ?_, ?_⟩
  · simp [envLineMatch, htake, hdrop, hk]
  · unfold strippedKey
    rw [hstrip]
    exact takeWhile_append_stop (p := fun c => c != '=') (a := '=')
      (by decide) k v hkp
  · unfold strippedValue
    rw [hstrip]
    rw [dropWhile_append_stop (p := fun c => c != '=') (a := '=')
      (by decide) k v hkp]
    simp

theorem dictLookup_insert (d : EnvDict) (kk v k : List Char) :
    dictLookup (dictInsert d kk v) k =
      if kk = k then some v else dictLookup d k := by
  induction d with
  | nil =>
    by_cases h : kk = k <;> simp [dictInsert, dictLookup, h]
  | cons p ps ih =>
    by_cases h1 : p.1 = kk
    · by_cases h2 : kk = k <;>
        simp [dictInsert, dictLookup, h1, h2]
    · by_cases h2 : p.1 = k
      · have h3 : ¬ kk = k := fun he => h1 (h2.trans he.symm)
        have h4 : ¬ k = kk := fun he => h3 he.symm
        simp [dictInsert, dictLookup, h1, h2, h3, h4]
      · simp [dictInsert, dictLookup, h1, h2, ih]

theorem dictLookup_isSome_of_mem {d : EnvDict} {kv : List Char × List Char}
    (h : kv ∈ d) : (dictLookup d kv.1).isSome = true := by
  induction d with
  | nil => cases h
  | cons p ps ih =>
    rcases List.mem_cons.1 h with rfl | h
    · simp [dictLookup]
    · by_cases hp : p.1 = kv.1
      · simp [dictLookup, hp]
      · simp only [dictLookup, beq_iff_eq, hp, if_false]
        exact ih h

theorem getEnv_fold_no_key (k : List Char) :
    ∀ (lines : List (List Char)) (acc : EnvDict),
    (∀ line ∈ lines, ¬(envLineMatch line = true ∧ strippedKey line = k)) →
    dictLookup (lines.foldl getEnvStep acc) k = dictLookup acc k := by
  intro lines
  induction lines with
  | nil => intro acc _; rfl
  | cons l ls ih =>
    intro acc h
    have hl := h l (List.mem_cons_self l ls)
    have hrest := ih (getEnvStep acc l)
      (fun x hx => h x (List.mem_cons_of_mem _ hx))
    rw [List.foldl_cons, hrest]
    unfold getEnvStep
    by_cases hm : envLineMatch l = true
    · have hk : ¬ strippedKey l = k := fun he => hl ⟨hm, he⟩
      simp [hm, dictLookup_insert, hk]
    · simp only [Bool.not_eq_true] at hm
      simp [hm]

theorem getEnv_fold_key (k v : List Char) :
    ∀ (lines : List (List Char)) (acc : EnvDict),
    (∀ line ∈ lines, envLineMatch line = true → strippedKey line = k →
      strippedValue line = v) →
    (∃ line ∈ lines, envLineMatch line = true ∧ strippedKey line = k) →
    dictLookup (lines.foldl getEnvStep acc) k = some v := by
  intro lines
  induction lines with
  | nil =>
    intro acc _ hex
    simp at hex
  | cons l ls ih =>
    intro acc hall hex
    by_cases hls : ∃ line ∈ ls, envLineMatch line = true ∧ strippedKey line = k
    · rw [List.foldl_cons]
      exact ih (getEnvStep acc l)
        (fun x hx => hall x (List.mem_cons_of_mem _ hx)) hls
    · have hl : envLineMatch l = true ∧ strippedKey l = k := by
        rcases hex with ⟨x, hx, hprop⟩
        rcases List.mem_cons.1 hx with rfl | hx
        · exact hprop
        · exact absurd ⟨x, hx, hprop⟩ hls
      have hv : strippedValue l = v :=
        hall l (List.mem_cons_self l ls) hl.1 hl.2
      rw [List.foldl_cons,
        getEnv_fold_no_key k ls _ (fun x hx hc => hls ⟨x, hx, hc⟩)]
      unfold getEnvStep
      simp [hl.1, hl.2, hv, dictLookup_insert]

theorem matchKey_isPrefix {line k : List Char} (hm : envLineMatch line = true)
    (hk : strippedKey line = k) : (k ++ ['=']).isPrefixOf line = true := by
  obtain ⟨h1, h2, _⟩ := strippedKey_of_match hm
  rw [← hk, h1]
  exact h2

/-- C8 (confirmed): deleting a key and then reading the file never yields
that key, for every file and every key: `delete_env_value` removes exactly
the lines starting with `key + "="`, and any line from which `get_env`
would read that key necessarily starts with `key + "="`. -/
theorem delete_then_read_absent (lines : List (List Char)) (key : List Char) :
    dictLookup (get_env (delete_env_value lines key)) key = none := by
  unfold get_env
  rw [getEnv_fold_no_key key (delete_env_value lines key) []
    (fun line hline hc => by
      have hpre : (key ++ ['=']).isPrefixOf line = true :=
        matchKey_isPrefix hc.1 hc.2
      have hmem := (List.mem_filter.1 hline).2
      rw [hpre] at hmem
      exact absurd hmem (by decide))]
  rfl

theorem contains_eq_true_iff {l : List (List Char)} {a : List Char} :
    l.contains a = true ↔ a ∈ l := by
  simp [List.contains_iff_exists_mem_beq, beq_iff_eq]

theorem setEnv_fold_char (incoming : EnvDict) :
    ∀ (lines : List (List Char)) (acc : List (List Char) × List (List Char)),
    lines.foldl (setEnvStep incoming) acc =
      (acc.1 ++ lines.map (rewriteLine incoming),
       acc.2 ++ (presentKeys lines).filter
         (fun k => (dictLookup incoming k).isSome)) := by
  intro lines
  induction lines with
  | nil => intro acc; simp [presentKeys]
  | cons l ls ih =>
    intro acc
    rw [List.foldl_cons, ih]
    by_cases hm : envLineMatch l = true
    · cases hv : dictLookup incoming (strippedKey l) with
      | some v =>
        simp [setEnvStep, rewriteLine, presentKeys, hm, hv,
          List.filterMap_cons, List.filter_cons]
      | none =>
        simp [setEnvStep, rewriteLine, presentKeys, hm, hv,
          List.filterMap_cons, List.filter_cons]
    · simp only [Bool.not_eq_true] at hm
      simp [setEnvStep, rewriteLine, presentKeys, hm, List.filterMap_cons]

theorem set_env_values_eq_mergeSpec (lines : List (List Char)) (U : EnvDict) :
    set_env_values lines U = mergeSpec lines U := by
  unfold set_env_values mergeSpec
  rw [setEnv_fold_char U lines ([], [])]
  simp only [List.nil_append]
  congr 1
  congr 1
  apply List.filter_congr
  intro kv hkv
  have hsome := dictLookup_isSome_of_mem hkv
  congr 1
  by_cases hmem : kv.1 ∈ presentKeys lines
  · have hin : kv.1 ∈ (presentKeys lines).filter
        (fun k => (dictLookup U k).isSome) :=
      List.mem_filter.2 ⟨hmem, hsome⟩
    rw [contains_eq_true_iff.2 hin, contains_eq_true_iff.2 hmem]
  · have hout : kv.1 ∉ (presentKeys lines).filter
        (fun k => (dictLookup U k).isSome) :=
      fun hin => hmem (List.mem_filter.1 hin).1
    have e1 : ((presentKeys lines).filter
        (fun k => (dictLookup U k).isSome)).contains kv.1 = false := by
      rcases Bool.eq_false_or_eq_true (((presentKeys lines).filter
        (fun k => (dictLookup U k).isSome)).contains kv.1) with ht | hf
      · exact absurd (contains_eq_true_iff.1 ht) hout
      · exact hf
    have e2 : (presentKeys lines).contains kv.1 = false := by
      rcases Bool.eq_false_or_eq_true ((presentKeys lines).contains kv.1)
        with ht | hf
      · exact absurd (contains_eq_true_iff.1 ht) hmem
      · exact hf
    rw [e1, e2]

/-- C7 (confirmed): `set_env_values` implements exactly the spec's merge:
every line whose key is in the update mapping is rewritten in place at its
original position, every key of the mapping not present in the file is
appended at the end in mapping iteration order, and every line not matching
the `identifier=value` pattern passes through verbatim (`mergeSpec` states
precisely this shape). -/
theorem merge_preserves_positions_and_appends (lines : List (List Char))
    (U : EnvDict) : set_env_values lines U = mergeSpec lines U :=
  set_env_values_eq_mergeSpec lines U

theorem contains_eq_false_iff {l : List (List Char)} {a : List Char} :
    l.contains a = false ↔ a ∉ l := by
  constructor
  · intro h hm
    rw [contains_eq_true_iff.2 hm] at h
    cases h
  · intro h
    rcases Bool.eq_false_or_eq_true (l.contains a) with ht | hf
    · exact absurd (contains_eq_true_iff.1 ht) h
    · exact hf

theorem set_env_single_lookup (lines : List (List Char)) (k v : List Char)
    (hk : isEnvKey k = true) (hv : ∀ c ∈ v, c.isWhitespace = false) :
    dictLookup (get_env (set_env_values lines [(k, v)])) k = some v := by
  obtain ⟨hcanon, hckey, hcval⟩ := canonical_line_parse hk hv
  rw [set_env_values_eq_mergeSpec]
  unfold get_env mergeSpec
  apply getEnv_fold_key
  · intro line hline hm hkey
    rcases List.mem_append.1 hline with hmap | happ
    · obtain ⟨l0, hl0, heq⟩ := List.mem_map.1 hmap
      by_cases hm0 : envLineMatch l0 = true
      · by_cases hk0 : strippedKey l0 = k
        · have hrw : rewriteLine [(k, v)] l0 = k ++ '=' :: (v ++ ['\n']) := by
            simp [rewriteLine, hm0, hk0, dictLookup]
          rw [hrw] at heq
          rw [← heq]
          exact hcval
        · have hne : ¬ k = strippedKey l0 := fun h => hk0 h.symm
          have hl : dictLookup [(k, v)] (strippedKey l0) = none := by
            simp [dictLookup, hne]
          have hrw : rewriteLine [(k, v)] l0 = l0 := by
            simp [rewriteLine, hm0, hl]
          rw [hrw] at heq
          rw [← heq] at hkey
          exact absurd hkey hk0
      · have hrw : rewriteLine [(k, v)] l0 = l0 := by
          simp only [Bool.not_eq_true] at hm0
          simp [rewriteLine, hm0]
        rw [hrw] at heq
        rw [← heq] at hm
        exact absurd hm hm0
    · obtain ⟨kv, hkv, heq⟩ := List.mem_map.1 happ
      have hkv1 : kv = (k, v) := by
        have := (List.mem_filter.1 hkv).1
        simpa using this
      subst hkv1
      rw [← heq]
      exact hcval
  · by_cases hmem : k ∈ presentKeys lines
    · obtain ⟨l0, hl0, hif⟩ := List.mem_filterMap.1 hmem
      by_cases hm0 : envLineMatch l0 = true
      · have hk0 : strippedKey l0 = k := by
          rw [if_pos hm0] at hif
          exact Option.some_injective _ hif
        refine ⟨k ++ '=' :: (v ++ ['\n']), ?_, hcanon, hckey⟩
        apply List.mem_append_left
        refine List.mem_map.2 ⟨l0, hl0, ?_⟩
        simp [rewriteLine, hm0, hk0, dictLookup]
      · rw [if_neg hm0] at hif
        cases hif
    · refine ⟨k ++ '=' :: (v ++ ['\n']), ?_, hcanon, hckey⟩
      apply List.mem_append_right
      apply List.mem_map.2
      refine ⟨(k, v), ?_, rfl⟩
      apply List.mem_filter.2
      refine ⟨List.mem_singleton.2 rfl, ?_⟩
      rw [contains_eq_false_iff.2 hmem]
      rfl

theorem pipPhase_res_ok (w : World) (hpip : w.pipOk = true) :
    (pipPhase w).1 = Except.ok () := by
  unfold pipPhase
  cases hreq : w.requirementsTxt <;> simp [hreq, hpip]

theorem dbPhase_env_some (w : World) (env : List (List Char))
    (scheme : List Char) (rel : Relation)
    (hres : resolveDb w.postgresRelations w.mongoRelations =
      some (scheme, rel)) :
    (dbPhase w env).2.2 =
      set_env_values env [(chars "DATABASE_URL", databaseUrl scheme rel)] := by
  unfold dbPhase
  rw [hres]
  by_cases hpc : truthyStr w.provisionCommand = true
  · cases hok : w.provisionOk <;> simp [hpc, hok]
  · simp only [Bool.not_eq_true] at hpc
    simp [hpc]

theorem dbPhase_env_none (w : World) (env : List (List Char))
    (hres : resolveDb w.postgresRelations w.mongoRelations = none) :
    (dbPhase w env).2.2 = delete_env_value env (chars "DATABASE_URL") := by
  unfold dbPhase
  rw [hres]

theorem dbPhase_res_ok (w : World) (env : List (List Char))
    (hprov : w.provisionOk = true) :
    (dbPhase w env).1 = Except.ok () := by
  unfold dbPhase
  cases hres : resolveDb w.postgresRelations w.mongoRelations with
  | none => rfl
  | some p =>
    obtain ⟨scheme, rel⟩ := p
    by_cases hpc : truthyStr w.provisionCommand = true
    · simp [hpc, hprov]
    · simp only [Bool.not_eq_true] at hpc
      simp [hpc]

theorem passBody_envFile (w : World) (env : List (List Char))
    (flags : List StateFlag) (hpip : w.pipOk = true) :
    (passBody w env flags).envFile = (dbPhase w env).2.2 := by
  unfold passBody
  rw [pipPhase_res_ok w hpip]
  cases hdb : (dbPhase w env).1 with
  | error e => simp [hdb]
  | ok u => cases u; simp [hdb]

theorem servicePhase_health_fail (w : World) (env : List (List Char))
    (flags : List StateFlag) (hreload : w.daemonReloadOk = true)
    (hfalse : (healthLoop
      (fun a => w.serviceRunningAt a && w.portOpenAt a) 0 10).1 = false) :
    (servicePhase w env flags).1 = Except.error PyError.serviceNotResponding ∧
    (servicePhase w env flags).2.2 = flags := by
  unfold servicePhase
  simp [hreload, hfalse]

theorem passBody_health_fail (w : World) (env : List (List Char))
    (flags : List StateFlag) (hpip : w.pipOk = true)
    (hprov : w.provisionOk = true) (hreload : w.daemonReloadOk = true)
    (hfalse : (healthLoop
      (fun a => w.serviceRunningAt a && w.portOpenAt a) 0 10).1 = false) :
    (passBody w env flags).res = Except.error PyError.serviceNotResponding ∧
    (passBody w env flags).flags = setStateFlag flags StateFlag.ready := by
  unfold passBody
  rw [pipPhase_res_ok w hpip, dbPhase_res_ok w env hprov]
  obtain ⟨h1, h2⟩ := servicePhase_health_fail w (dbPhase w env).2.2
    (setStateFlag flags StateFlag.ready) hreload hfalse
  exact ⟨h1, h2⟩

theorem setStateFlag_mem_of_mem {flags : List StateFlag} {f : StateFlag}
    (g : StateFlag) (h : f ∈ flags) : f ∈ setStateFlag flags g := by
  unfold setStateFlag
  split
  · exact h
  · exact List.mem_append_left _ h

theorem mem_setStateFlag_elim {flags : List StateFlag} {f g : StateFlag}
    (h : f ∈ setStateFlag flags g) : f = g ∨ f ∈ flags := by
  unfold setStateFlag at h
  rcases (by assumption : f ∈ (if g ∈ flags then flags else flags ++ [g]))
    with h'
  by_cases hg : g ∈ flags
  · rw [if_pos hg] at h
    exact Or.inr h
  · rw [if_neg hg] at h
    rcases List.mem_append.1 h with h | h
    · exact Or.inr h
    · exact Or.inl (List.mem_singleton.1 h)

theorem removeStateFlag_mem {flags : List StateFlag} {f g : StateFlag}
    (h : f ∈ flags) (hne : f ≠ g) : f ∈ removeStateFlag flags g := by
  unfold removeStateFlag
  exact List.mem_filter.2 ⟨h, by simpa using hne⟩

theorem removeStateFlag_not_mem (flags : List StateFlag) (g : StateFlag) :
    g ∉ removeStateFlag flags g := by
  unfold removeStateFlag
  intro h
  have := (List.mem_filter.1 h).2
  simp at this

theorem servicePhase_flags_mono (w : World) (env : List (List Char))
    (flags : List StateFlag) (f : StateFlag) (h : f ∈ flags) :
    f ∈ (servicePhase w env flags).2.2 := by
  unfold servicePhase
  by_cases hrel : w.daemonReloadOk = true
  · simp only [hrel, if_true]
    by_cases hh : (healthLoop
        (fun a => w.serviceRunningAt a && w.portOpenAt a) 0 10).1 = true
    · simp only [hh, if_true]
      exact setStateFlag_mem_of_mem _ h
    · simp only [Bool.not_eq_true] at hh
      simp only [hh, Bool.false_eq_true, if_false]
      exact h
  · simp only [Bool.not_eq_true] at hrel
    simp only [hrel, Bool.false_eq_true, if_false]
    exact h

theorem passBody_flags_mono (w : World) (env : List (List Char))
    (flags : List StateFlag) (f : StateFlag) (h : f ∈ flags) :
    f ∈ (passBody w env flags).flags := by
  unfold passBody
  cases hpip : (pipPhase w).1 with
  | error e => exact h
  | ok u =>
    cases u
    cases hdb : (dbPhase w env).1 with
    | error e => exact setStateFlag_mem_of_mem _ h
    | ok u2 =>
      cases u2
      exact servicePhase_flags_mono w _ _ f (setStateFlag_mem_of_mem _ h)

theorem servicePhase_flags_no_new (w : World) (env : List (List Char))
    (flags : List StateFlag) (f : StateFlag)
    (h : f ∈ (servicePhase w env flags).2.2) :
    f = StateFlag.available ∨ f ∈ flags := by
  unfold servicePhase at h
  by_cases hrel : w.daemonReloadOk = true
  · simp only [hrel, if_true] at h
    by_cases hh : (healthLoop
        (fun a => w.serviceRunningAt a && w.portOpenAt a) 0 10).1 = true
    · simp only [hh, if_true] at h
      exact mem_setStateFlag_elim h
    · simp only [Bool.not_eq_true] at hh
      simp only [hh, Bool.false_eq_true, if_false] at h
      exact Or.inr h
  · simp only [Bool.not_eq_true] at hrel
    simp only [hrel, Bool.false_eq_true, if_false] at h
    exact Or.inr h

theorem healthLoop_no_remove (pred : Nat → Bool) (f : StateFlag) :
    ∀ (r attempt : Nat),
    Effect.removeState f ∉ (healthLoop pred attempt r).2 := by
  intro r
  induction r with
  | zero => intro attempt; simp [healthLoop]
  | succ n ih =>
    intro attempt
    by_cases hp : pred attempt = true
    · simp [healthLoop, hp]
    · simp only [Bool.not_eq_true] at hp
      simp only [healthLoop, hp, Bool.false_eq_true, if_false]
      simp only [List.mem_append, List.mem_cons]
      intro hcon
      rcases hcon with (h | h) | h | h
      · cases h
      · simp at h
      · cases h
      · exact ih (attempt + 1) h

theorem pipPhase_no_remove (w : World) (f : StateFlag) :
    Effect.removeState f ∉ (pipPhase w).2 := by
  unfold pipPhase
  cases hreq : w.requirementsTxt <;> simp

theorem dbPhase_no_remove (w : World) (env : List (List Char)) (f : StateFlag) :
    Effect.removeState f ∉ (dbPhase w env).2.1 := by
  unfold dbPhase
  cases hres : resolveDb w.postgresRelations w.mongoRelations with
  | none => simp
  | some p =>
    obtain ⟨scheme, rel⟩ := p
    by_cases hpc : truthyStr w.provisionCommand = true
    · cases hok : w.provisionOk <;> simp [hpc, hok]
    · simp only [Bool.not_eq_true] at hpc
      simp [hpc]

theorem servicePhase_no_remove (w : World) (env : List (List Char))
    (flags : List StateFlag) (f : StateFlag) :
    Effect.removeState f ∉ (servicePhase w env flags).2.1 := by
  unfold servicePhase
  have hh := healthLoop_no_remove
    (fun a => w.serviceRunningAt a && w.portOpenAt a) f 10 0
  by_cases hrel : w.daemonReloadOk = true
  · simp only [hrel, if_true]
    by_cases hok : (healthLoop
        (fun a => w.serviceRunningAt a && w.portOpenAt a) 0 10).1 = true
    · simp only [hok, if_true]
      cases hsr : w.serviceRunningInit <;> simp_all
    · simp only [Bool.not_eq_true] at hok
      simp only [hok, Bool.false_eq_true, if_false]
      cases hsr : w.serviceRunningInit <;> simp_all
  · simp only [Bool.not_eq_true] at hrel
    simp [hrel]

theorem passBody_no_remove (w : World) (env : List (List Char))
    (flags : List StateFlag) (f : StateFlag) :
    Effect.removeState f ∉ (passBody w env flags).trace := by
  unfold passBody
  have hp := pipPhase_no_remove w f
  have hd := dbPhase_no_remove w env f
  have hs := servicePhase_no_remove w (dbPhase w env).2.2
    (setStateFlag flags StateFlag.ready) f
  cases hpip : (pipPhase w).1 with
  | error e => simp_all
  | ok u =>
    cases u
    cases hdb : (dbPhase w env).1 with
    | error e => simp_all
    | ok u2 => cases u2; simp_all

theorem start_app_parts (w : World) (env0 : List (List Char))
    (flags0 : List StateFlag) :
    (start_application_service w env0 flags0).res =
      (passBody w env0 (removeStateFlag
        (removeStateFlag flags0 StateFlag.sourceAvailable)
        StateFlag.available)).res ∧
    (start_application_service w env0 flags0).flags =
      (passBody w env0 (removeStateFlag
        (removeStateFlag flags0 StateFlag.sourceAvailable)
        StateFlag.available)).flags ∧
    (start_application_service w env0 flags0).trace =
      Effect.removeState StateFlag.sourceAvailable ::
        Effect.removeState StateFlag.available ::
        (passBody w env0 (removeStateFlag
          (removeStateFlag flags0 StateFlag.sourceAvailable)
          StateFlag.available)).trace ∧
    (start_application_service w env0 flags0).envFile =
      (passBody w env0 (removeStateFlag
        (removeStateFlag flags0 StateFlag.sourceAvailable)
        StateFlag.available)).envFile :=
  ⟨rfl, rfl, rfl, rfl⟩

/-- C2 (confirmed): every run of `start_application_service` performs the
clearing of `wsgi.source.available` and `wsgi.available` as its first two
effects, before anything else; no handler ever clears any other flag
(`remove_state` appears nowhere else), so within one pass every flag other
than those two is monotonic: once in the flag set, it stays in it across
every handler. -/
theorem pass_clears_then_flags_monotonic (w : World) (env0 : List (List Char))
    (flags0 : List StateFlag) (aptDeps : List String) (envVarsStr : List Char) :
    (start_application_service w env0 flags0).trace.take 2 =
      [Effect.removeState StateFlag.sourceAvailable,
        Effect.removeState StateFlag.available] ∧
    (∀ f, Effect.removeState f ∈
        (start_application_service w env0 flags0).trace →
      f = StateFlag.sourceAvailable ∨ f = StateFlag.available) ∧
    (∀ f, Effect.removeState f ∉ (system_dependencies env0 flags0).trace) ∧
    (∀ f, Effect.removeState f ∉
        (configure_dependencies aptDeps envVarsStr env0 flags0).trace) ∧
    (∀ f, Effect.removeState f ∉ (send_port w env0 flags0).trace) ∧
    (∀ f, Effect.removeState f ∈ (database_attached w env0 flags0).trace →
      f = StateFlag.sourceAvailable ∨ f = StateFlag.available) ∧
    (∀ f, f ≠ StateFlag.sourceAvailable → f ≠ StateFlag.available →
      f ∈ flags0 → f ∈ (start_application_service w env0 flags0).flags) ∧
    (∀ f, f ∈ flags0 → f ∈ (system_dependencies env0 flags0).flags) ∧
    (∀ f, f ∈ flags0 →
      f ∈ (configure_dependencies aptDeps envVarsStr env0 flags0).flags) ∧
    (∀ f, f ∈ flags0 → f ∈ (send_port w env0 flags0).flags) ∧
    (∀ f, f ≠ StateFlag.sourceAvailable → f ≠ StateFlag.available →
      f ∈ flags0 → f ∈ (database_attached w env0 flags0).flags) := by
  obtain ⟨hres, hfl, htr, henv⟩ := start_app_parts w env0 flags0
  have hremove : ∀ f, Effect.removeState f ∈
      (start_application_service w env0 flags0).trace →
      f = StateFlag.sourceAvailable ∨ f = StateFlag.available := by
    intro f hmem
    rw [htr] at hmem
    rcases List.mem_cons.1 hmem with h | h
    · exact Or.inl (by injection h)
    · rcases List.mem_cons.1 h with h | h
      · exact Or.inr (by injection h)
      · exact absurd h (passBody_no_remove w env0 _ f)
  have hmono : ∀ f, f ≠ StateFlag.sourceAvailable →
      f ≠ StateFlag.available → f ∈ flags0 →
      f ∈ (start_application_service w env0 flags0).flags := by
    intro f h1 h2 hmem
    rw [hfl]
    exact passBody_flags_mono w env0 _ f
      (removeStateFlag_mem (removeStateFlag_mem hmem h1) h2)
  refine ⟨by rw [htr]; rfl, hremove, ?_, ?_, ?_, ?_, hmono, ?_, ?_, ?_, ?_⟩
  · intro f
    simp [system_dependencies]
  · intro f
    unfold configure_dependencies
    cases hv : variables_from_string envVarsStr <;> simp
  · intro f
    simp [send_port]
  · intro f hmem
    unfold database_attached at hmem
    by_cases hcond : StateFlag.configured ∈ flags0 ∧
        StateFlag.sourceAvailable ∈ flags0 ∧ StateFlag.systemReady ∈ flags0
    · rw [if_pos hcond] at hmem
      exact hremove f hmem
    · rw [if_neg hcond] at hmem
      simp at hmem
  · intro f hmem
    unfold system_dependencies
    exact setStateFlag_mem_of_mem _ hmem
  · intro f hmem
    unfold configure_dependencies
    cases hv : variables_from_string envVarsStr
    · exact hmem
    · exact setStateFlag_mem_of_mem _ hmem
  · intro f hmem
    exact hmem
  · intro f h1 h2 hmem
    unfold database_attached
    by_cases hcond : StateFlag.configured ∈ flags0 ∧
        StateFlag.sourceAvailable ∈ flags0 ∧ StateFlag.systemReady ∈ flags0
    · rw [if_pos hcond]
      exact hmono f h1 h2 hmem
    · rw [if_neg hcond]
      exact hmem

/-- Witness for C2's theorem: in a concrete run the first two effects are
the two clears, and `wsgi.system.ready` survives the pass. -/
theorem pass_clears_then_flags_monotonic_witness :
    (start_application_service sampleWorld []
      [StateFlag.systemReady]).trace.take 2 =
      [Effect.removeState StateFlag.sourceAvailable,
        Effect.removeState StateFlag.available] ∧
    StateFlag.systemReady ∈
      (start_application_service sampleWorld [] [StateFlag.systemReady]).flags :=
  have h := pass_clears_then_flags_monotonic sampleWorld []
    [StateFlag.systemReady] [] []
  ⟨h.1, h.2.2.2.2.2.2.1 StateFlag.systemReady (by decide) (by decide)
    (by decide)⟩

/-- C3 (confirmed): when the health predicate (service running AND port
open) is false on every one of the 10 attempts and the external commands of
the pass succeed, `start_application_service` raises the dedicated
`ServiceNotResponding` error — a constructor distinct from every generic
process failure — and its final flag set does not contain
`wsgi.available`: the flag was cleared at pass entry and its only setter is
the success branch of the health check. -/
theorem pass_health_exhaustion (w : World) (env0 : List (List Char))
    (flags0 : List StateFlag) (hpip : w.pipOk = true)
    (hprov : w.provisionOk = true) (hreload : w.daemonReloadOk = true)
    (hfail : ∀ a, a < 10 → (w.serviceRunningAt a && w.portOpenAt a) = false) :
    (start_application_service w env0 flags0).res =
      Except.error PyError.serviceNotResponding ∧
    StateFlag.available ∉ (start_application_service w env0 flags0).flags ∧
    (∀ cmd, (PyError.serviceNotResponding : PyError) ≠
      PyError.processFailure cmd) := by
  have hfalse : (healthLoop (fun a => w.serviceRunningAt a && w.portOpenAt a)
      0 10).1 = false :=
    (healthLoop_all_false _ 10 0 (fun j hj => by simpa using hfail j hj)).1
  obtain ⟨hres, hfl, htr, henv⟩ := start_app_parts w env0 flags0
  obtain ⟨hbres, hbfl⟩ := passBody_health_fail w env0
    (removeStateFlag (removeStateFlag flags0 StateFlag.sourceAvailable)
      StateFlag.available) hpip hprov hreload hfalse
  refine ⟨hres.trans hbres, ?_, ?_⟩
  · rw [hfl, hbfl]
    intro hmem
    rcases mem_setStateFlag_elim hmem with he | hmem1
    · cases he
    · exact removeStateFlag_not_mem _ _ hmem1
  · intro cmd h
    cases h

/-- Witness for C3's theorem: in the concrete always-failing world the pass
ends in `serviceNotResponding` with `wsgi.available` unset. -/
theorem pass_health_exhaustion_witness :
    (start_application_service sampleWorld [] []).res =
      Except.error PyError.serviceNotResponding ∧
    StateFlag.available ∉ (start_application_service sampleWorld [] []).flags ∧
    ((PyError.serviceNotResponding : PyError) ≠
      PyError.processFailure ["pip3"]) :=
  have h := pass_health_exhaustion sampleWorld [] [] rfl rfl rfl
    (fun _ _ => rfl)
  ⟨h.1, h.2.1, h.2.2 ["pip3"]⟩

/-- C4 (corrected): with a single Postgres relation carrying `host="db1"`,
`port=5432`, `user="app"` and no database name, the URL stored under
`DATABASE_URL` is exactly `postgresql://app@db1:5432` — with NO trailing
slash: `urlunparse` leaves the empty path segment empty rather than
rendering it as `/`. -/
theorem database_url_stored (w : World) (env0 : List (List Char))
    (flags0 : List StateFlag) (hpip : w.pipOk = true)
    (hrel : w.postgresRelations = [sampleRelation]) :
    dictLookup (get_env (start_application_service w env0 flags0).envFile)
      (chars "DATABASE_URL") = some (chars "postgresql://app@db1:5432") := by
  obtain ⟨_, _, _, henv⟩ := start_app_parts w env0 flags0
  rw [henv, passBody_envFile w env0 _ hpip]
  have hres : resolveDb w.postgresRelations w.mongoRelations =
      some (chars "postgresql", sampleRelation) := by
    rw [hrel]
    rfl
  rw [dbPhase_env_some w env0 _ _ hres]
  have hurl : databaseUrl (chars "postgresql") sampleRelation =
      chars "postgresql://app@db1:5432" := by decide
  rw [hurl]
  exact set_env_single_lookup env0 _ _ (by decide) (by decide)

/-- Witness for C4's amended theorem at the concrete scenario-B world. -/
theorem database_url_stored_witness :
    dictLookup (get_env (start_application_service
      { sampleWorld with postgresRelations := [sampleRelation] } []
      []).envFile) (chars "DATABASE_URL") =
      some (chars "postgresql://app@db1:5432") :=
  database_url_stored
    { sampleWorld with postgresRelations := [sampleRelation] } [] [] rfl rfl

/-- Counterexample to C4 as stated: the stored URL is not
`postgresql://app@db1:5432/`; the empty path segment is not rendered as a
trailing slash. -/
theorem database_url_trailing_slash_false :
    ¬ (dictLookup (get_env (start_application_service
        { sampleWorld with postgresRelations := [sampleRelation] } []
        []).envFile) (chars "DATABASE_URL") =
      some (chars "postgresql://app@db1:5432/")) := by
  decide

/-- C6 (confirmed): database relation resolution is Postgres-first: any
nonempty Postgres candidate list wins with scheme `postgresql` and only its
first record (every Mongo candidate and further Postgres candidate is
ignored); otherwise a nonempty Mongo list wins with scheme `mongodb` and
its first record; with no candidates the result is absent and the pass
deletes the stored `DATABASE_URL` key, so reading the store afterwards
yields nothing for that key. -/
theorem resolve_db_priority (r : Relation) (rs : List Relation)
    (m : List Relation) (w : World) (env0 : List (List Char))
    (flags0 : List StateFlag) (hpip : w.pipOk = true)
    (hpg : w.postgresRelations = []) (hm : w.mongoRelations = []) :
    resolveDb (r :: rs) m = some (chars "postgresql", r) ∧
    resolveDb [] (r :: rs) = some (chars "mongodb", r) ∧
    resolveDb [] [] = (none : Option (List Char × Relation)) ∧
    dictLookup (get_env (start_application_service w env0 flags0).envFile)
      (chars "DATABASE_URL") = none := by
  refine ⟨rfl, rfl, rfl, ?_⟩
  obtain ⟨_, _, _, henv⟩ := start_app_parts w env0 flags0
  rw [henv, passBody_envFile w env0 _ hpip]
  have hres : resolveDb w.postgresRelations w.mongoRelations = none := by
    rw [hpg, hm]
    rfl
  rw [dbPhase_env_none w env0 hres]
  unfold get_env
  rw [getEnv_fold_no_key (chars "DATABASE_URL")
    (delete_env_value env0 (chars "DATABASE_URL")) []
    (fun line hline hc => by
      have hpre : (chars "DATABASE_URL" ++ ['=']).isPrefixOf line = true :=
        matchKey_isPrefix hc.1 hc.2
      have hmem := (List.mem_filter.1 hline).2
      rw [hpre] at hmem
      exact absurd hmem (by decide))]
  rfl

/-- Witness for C6's theorem: a store holding a stale `DATABASE_URL` line
loses it when the pass runs with no relations at all. -/
theorem resolve_db_priority_witness :
    resolveDb [sampleRelation] [sampleRelation] =
      some (chars "postgresql", sampleRelation) ∧
    resolveDb [] [sampleRelation] = some (chars "mongodb", sampleRelation) ∧
    resolveDb [] [] = (none : Option (List Char × Relation)) ∧
    dictLookup (get_env (start_application_service sampleWorld
      [chars "DATABASE_URL=stale\n"] []).envFile)
      (chars "DATABASE_URL") = none :=
  resolve_db_priority sampleRelation [] [sampleRelation] sampleWorld
    [chars "DATABASE_URL=stale\n"] [] rfl rfl rfl

theorem splitOnChar_ne_nil (sep : Char) : ∀ (t : List Char),
    splitOnChar sep t ≠ [] := by
  intro t
  induction t with
  | nil => simp [splitOnChar]
  | cons c cs ih =>
    by_cases hc : c == sep
    · simp [splitOnChar, hc]
    · simp only [splitOnChar, hc, Bool.false_eq_true, if_false]
      cases hs : splitOnChar sep cs with
      | nil => simp
      | cons w ws => simp

theorem splitOnChar_length (sep : Char) : ∀ (t : List Char),
    (splitOnChar sep t).length = t.count sep + 1 := by
  intro t
  induction t with
  | nil => simp [splitOnChar]
  | cons c cs ih =>
    by_cases hc : c == sep
    · have hceq : c = sep := by simpa using hc
      simp [splitOnChar, hc, List.count_cons, hceq, ih]
    · have hcne : ¬ c = sep := by simpa using hc
      cases hs : splitOnChar sep cs with
      | nil => exact absurd hs (splitOnChar_ne_nil sep cs)
      | cons w ws =>
        rw [hs] at ih
        simp [splitOnChar, hc, hs, List.count_cons, hcne]
        simpa using ih

theorem splitOnChar_count_zero : ∀ (t : List Char),
    t.count '=' = 0 → splitOnChar '=' t = [t] := by
  intro t
  induction t with
  | nil => intro _; rfl
  | cons c cs ih =>
    intro h
    have hcne : ¬ c = '=' := by
      intro he
      rw [List.count_cons] at h
      simp [he] at h
    have hc : (c == '=') = false := by simpa using hcne
    have hcs : cs.count '=' = 0 := by
      rw [List.count_cons] at h
      omega
    simp [splitOnChar, hc, ih hcs]

theorem splitOnChar_count_one : ∀ (t : List Char), t.count '=' = 1 →
    splitOnChar '=' t = [t.takeWhile (fun c => c != '='),
      (t.dropWhile (fun c => c != '=')).drop 1] := by
  intro t
  induction t with
  | nil => intro h; simp at h
  | cons c cs ih =>
    intro h
    by_cases hc : c = '='
    · subst hc
      have hcs : cs.count '=' = 0 := by
        rw [List.count_cons] at h
        simp at h
        omega
      simp [splitOnChar, splitOnChar_count_zero cs hcs,
        List.takeWhile_cons, List.dropWhile_cons]
    · have hcb : (c == '=') = false := by simpa using hc
      have hcs : cs.count '=' = 1 := by
        rw [List.count_cons] at h
        simp [hc] at h
        omega
      have := ih hcs
      simp [splitOnChar, hcb, this, List.takeWhile_cons,
        List.dropWhile_cons, hc]

theorem vfs_fold_ok : ∀ (tokens : List (List Char)) (acc : EnvDict),
    (∀ t ∈ tokens, t.count '=' = 1) →
    tokens.foldlM vfsStep acc = Except.ok (tokens.foldl
      (fun d t => dictInsert d (t.takeWhile (fun c => c != '='))
        ((t.dropWhile (fun c => c != '=')).drop 1)) acc) := by
  intro tokens
  induction tokens with
  | nil => intro acc _; rfl
  | cons t ts ih =>
    intro acc h
    have ht := h t (List.mem_cons_self t ts)
    have hstep : vfsStep acc t = Except.ok (dictInsert acc
        (t.takeWhile (fun c => c != '='))
        ((t.dropWhile (fun c => c != '=')).drop 1)) := by
      unfold vfsStep
      rw [splitOnChar_count_one t ht]
    rw [List.foldlM_cons, hstep]
    rw [List.foldl_cons]
    exact ih _ (fun x hx => h x (List.mem_cons_of_mem _ hx))

theorem vfs_fold_err : ∀ (tokens : List (List Char)) (acc : EnvDict),
    (∃ t ∈ tokens, t.count '=' ≠ 1) →
    tokens.foldlM vfsStep acc = Except.error PyError.valueError := by
  intro tokens
  induction tokens with
  | nil =>
    intro acc h
    simp at h
  | cons t ts ih =>
    intro acc h
    by_cases ht : t.count '=' = 1
    · have hstep : vfsStep acc t = Except.ok (dictInsert acc
          (t.takeWhile (fun c => c != '='))
          ((t.dropWhile (fun c => c != '=')).drop 1)) := by
        unfold vfsStep
        rw [splitOnChar_count_one t ht]
      have hts : ∃ x ∈ ts, x.count '=' ≠ 1 := by
        rcases h with ⟨x, hx, hcx⟩
        rcases List.mem_cons.1 hx with rfl | hx
        · exact absurd ht hcx
        · exact ⟨x, hx, hcx⟩
      rw [List.foldlM_cons, hstep]
      exact ih _ hts
    · have hstep : vfsStep acc t = Except.error PyError.valueError := by
        unfold vfsStep
        have hlen : (splitOnChar '=' t).length ≠ 2 := by
          rw [splitOnChar_length]
          omega
        cases hs : splitOnChar '=' t with
        | nil => rfl
        | cons a l1 =>
          cases l1 with
          | nil => rfl
          | cons b l2 =>
            cases l2 with
            | nil =>
              rw [hs] at hlen
              simp at hlen
            | cons d l3 => rfl
      rw [List.foldlM_cons, hstep]
      rfl

/-- C10 (confirmed): `variables_from_string` is total only on well-formed
input.  When every whitespace-separated token contains exactly one `=`, it
returns the corresponding entries (splitting each token at its `=`, later
duplicates overriding earlier ones in place); as soon as any token contains
zero or more than one `=` it raises `ValueError`, so the `config-changed`
handler aborts — unlike `get_env`, which splits each line on its first `=`
only and accepts a value containing `=`. -/
theorem variables_from_string_strictness (s : List Char)
    (aptDeps : List String) (env0 : List (List Char))
    (flags0 : List StateFlag) :
    ((∀ t ∈ pyWords s, t.count '=' = 1) →
      variables_from_string s = Except.ok (declaredVars (pyWords s))) ∧
    ((∃ t ∈ pyWords s, t.count '=' ≠ 1) →
      variables_from_string s = Except.error PyError.valueError ∧
      (configure_dependencies aptDeps s env0 flags0).res =
        Except.error PyError.valueError) ∧
    (variables_from_string (chars "A=b=c") = Except.error PyError.valueError ∧
      get_env [chars "A=b=c\n"] = [(chars "A", chars "b=c")]) := by
  refine ⟨?_, ?_, rfl, rfl⟩
  · intro h
    unfold variables_from_string declaredVars
    exact vfs_fold_ok (pyWords s) [] h
  · intro h
    have herr : variables_from_string s = Except.error PyError.valueError := by
      unfold variables_from_string
      exact vfs_fold_err (pyWords s) [] h
    refine ⟨herr, ?_⟩
    unfold configure_dependencies
    rw [herr]

/-- Witness for C10's theorem: a well-formed declaration string parses to
its entry list; a value containing `=` raises and aborts the
`config-changed` handler. -/
theorem variables_from_string_strictness_witness :
    variables_from_string (chars "var1=val1 var2=val2") =
      Except.ok (declaredVars (pyWords (chars "var1=val1 var2=val2"))) ∧
    variables_from_string (chars "PASSWORD=a=b") =
      Except.error PyError.valueError ∧
    (configure_dependencies [] (chars "PASSWORD=a=b") [] []).res =
      Except.error PyError.valueError :=
  have h1 := (variables_from_string_strictness (chars "var1=val1 var2=val2")
    [] [] []).1 (by decide)
  have h2 := (variables_from_string_strictness (chars "PASSWORD=a=b")
    [] [] []).2.1 ⟨chars "PASSWORD=a=b", by decide, by decide⟩
  ⟨h1, h2.1, h2.2⟩
